import Mathlib

set_option maxRecDepth 8000

/-!
Shallow embedding of the Solana voting program
(`programs/voting/src/lib.rs`, Anchor framework) and proofs of its
specification properties.

The program has two instructions:

* `initialize_voting(company_id, voting_id, question, options)` — creates a
  `VotingAccount` PDA at seeds `["voting", company_id, voting_id]`, validates
  `2 <= options.len() <= 3`, stores the metadata and zero-initializes the
  tallies.
* `vote(_company_id, _voting_id, selected_option)` — creates a `VoteAccount`
  PDA at seeds `["vote", voting_key, voter_key]` (Anchor `init`: fails if the
  account already exists, which is the sole double-vote defense), validates
  `selected_option < options.len()`, records the voter's choice and increments
  `votes[selected_option]` and `total_votes`.

Modelling decisions, each justified by the source:

* PDAs are modelled by their seed tuples: a topic account lives at key
  `(company_id, voting_id)` and a vote account at key
  `((company_id, voting_id), voter)`.  PDA derivation is deterministic and
  collision-resistant, so distinct seed tuples give distinct addresses.
* Account storage is an association list from keys to account contents; the
  Anchor `init` constraint ("create or fail if occupied") becomes a lookup
  followed by either an error or an insertion.
* Anchor processes the `#[derive(Accounts)]` context BEFORE the instruction
  body runs: for `initialize_voting` the `init` collision check on the voting
  PDA precedes the options-count `require!`; for `vote` the existence check on
  the voting account and the `init` collision check on the vote PDA precede
  the `require!` on `selected_option`.  The definitions below keep that order.
* A transaction either commits all of its writes or aborts with an error and
  writes nothing (Solana transaction atomicity), so each instruction is a
  function `ChainState -> Except TxError ChainState`; on an error the caller
  keeps the old state unchanged.
* `u64` arithmetic: the source increments `votes[i]` and `total_votes` with
  `+= 1` on `u64`; in a release build (the default for on-chain builds, no
  overflow checks in the crate itself) this wraps modulo `2 ^ 64`, so the
  embedding adds `% U64MOD` at each increment.
* `voting.votes[selected_option as usize] += 1` is a Rust indexing operation
  that panics when the index is out of bounds; the embedding makes that
  outcome explicit as the `TxError.Panicked` result, so that "the program
  never panics" is a provable statement rather than an artifact.
* Anchor serializes an account back into its fixed-size buffer when the
  instruction returns; if the borsh-serialized content exceeds the `space`
  the account was allocated with (`VotingAccount::SPACE` bytes), the
  transaction fails (`AccountDidNotSerialize`).  The embedding computes the
  borsh size (8-byte discriminator, 4-byte length prefixes for strings and
  vectors, UTF-8 bytes for strings, 8 bytes per `u64`) and performs that
  check.  Note the source has no per-field length check on `question` or on
  individual options: only the total size is constrained.
-/

namespace SolanaVoting

/-- Modulus of `u64` arithmetic. -/
def U64MOD : Nat := 2 ^ 64

/-- A Solana public key (account address / signer identity).  The program
only ever compares pubkeys and uses them as PDA seeds, so an abstract
identifier suffices. -/
abbrev Pubkey := Nat

/-- Mirror of `struct VotingAccount`: the topic record.  `company_id`,
`voting_id`, `votes` entries and `total_votes` are `u64` values, `votes` and
`options` are `Vec`s. -/
structure VotingAccount where
  company_id : Nat
  voting_id : Nat
  question : String
  options : List String
  votes : List Nat
  total_votes : Nat
deriving DecidableEq, Repr

/-- Mirror of `struct VoteAccount`: one per (topic, voter) pair. -/
structure VoteAccount where
  voter : Pubkey
  selected_option : Nat
deriving DecidableEq, Repr

/-- Mirror of `VotingAccount::SPACE`: bytes reserved at allocation.
8 discriminator + 8 company_id + 8 voting_id + (4 + 256) question
+ (4 + 3 * (4 + 64)) options + (4 + 3 * 8) votes + 8 total_votes. -/
def VotingAccount.SPACE : Nat :=
  8 + 8 + 8 + (4 + 256) + (4 + 3 * (4 + 64)) + (4 + 3 * 8) + 8

/-- Borsh-serialized size of a `VotingAccount` as Anchor writes it:
8-byte discriminator, two `u64`s, a length-prefixed UTF-8 string, a
length-prefixed vector of length-prefixed strings, a length-prefixed vector
of `u64`s, and a final `u64`. -/
def VotingAccount.serializedSize (a : VotingAccount) : Nat :=
  8 + 8 + 8 + (4 + a.question.utf8ByteSize)
    + (4 + (a.options.map (fun o => 4 + o.utf8ByteSize)).sum)
    + (4 + 8 * a.votes.length) + 8

/-- Mirror of `VoteAccount::SPACE`: 8 discriminator + 32 pubkey + 1 option. -/
def VoteAccount.SPACE : Nat := 8 + 32 + 1

/-- Borsh-serialized size of a `VoteAccount` (a fixed-width pubkey and a
`u8`), constant. -/
def VoteAccount.serializedSize (_ : VoteAccount) : Nat := 8 + 32 + 1

/-- Every way a transaction running one of the two instructions can fail.
`InvalidOptionsCount` and `InvalidOption` are the program's own
`VotingError` codes; `TopicAlreadyExists` (voting PDA `init` on an occupied
address), `AlreadyVoted` (vote PDA `init` on an occupied address),
`TopicNotFound` (voting account missing in the `Vote` context) and
`AccountDidNotSerialize` (serialized account exceeds its allocated space)
are produced by the Anchor accounts machinery; `Panicked` marks an abort
from a Rust panic (out-of-bounds indexing). -/
inductive TxError
  | InvalidOptionsCount
  | InvalidOption
  | TopicAlreadyExists
  | AlreadyVoted
  | TopicNotFound
  | AccountDidNotSerialize
  | Panicked
deriving DecidableEq, Repr

instance {ε α : Type} [DecidableEq ε] [DecidableEq α] : DecidableEq (Except ε α) := fun x y =>
  match x, y with
  | .ok a, .ok b => if h : a = b then .isTrue (by rw [h]) else .isFalse (by simp [h])
  | .error a, .error b => if h : a = b then .isTrue (by rw [h]) else .isFalse (by simp [h])
  | .ok _, .error _ => .isFalse (by simp)
  | .error _, .ok _ => .isFalse (by simp)

/-- Seed tuple of a `VotingAccount` PDA: `["voting", company_id, voting_id]`. -/
abbrev TopicKey := Nat × Nat

/-- Seed tuple of a `VoteAccount` PDA: `["vote", voting_key, voter_key]`. -/
abbrev VoteKey := TopicKey × Pubkey

/-- Lookup in an association list (the content stored at an address, if the
address is occupied). -/
def alookup {α β : Type} [DecidableEq α] (k : α) : List (α × β) → Option β
  | [] => none
  | (a, b) :: rest => if a = k then some b else alookup k rest

/-- Overwrite the content stored at an occupied address, leaving every other
entry alone (used for the mutable `voting` account in `vote`). -/
def aset {α β : Type} [DecidableEq α] (k : α) (b : β) : List (α × β) → List (α × β)
  | [] => []
  | (a, v) :: rest => if a = k then (a, b) :: rest else (a, v) :: aset k b rest

/-- All accounts owned by the program: the voting (topic) PDAs and the vote
(record) PDAs, each keyed by its seed tuple. -/
structure ChainState where
  votings : List (TopicKey × VotingAccount)
  voteRecords : List (VoteKey × VoteAccount)
deriving DecidableEq, Repr

/-- The chain before any instruction of this program has run. -/
def initialState : ChainState := ⟨[], []⟩

/-- The `VotingAccount` content the body of `initialize_voting` writes:
the four metadata fields as given, `votes = vec![0; options.len()]`,
`total_votes = 0`. -/
def mkVoting (company_id voting_id : Nat) (question : String)
    (options : List String) : VotingAccount :=
  { company_id := company_id, voting_id := voting_id, question := question,
    options := options, votes := List.replicate options.length 0,
    total_votes := 0 }

/-- Embedding of the `initialize_voting` instruction, including its Anchor
accounts phase.  Order of effects, as in the source: (1) `init` of the
voting PDA — fails if the address `(company_id, voting_id)` is occupied;
(2) the body: `require!(2 <= options.len() <= 3)`, store the metadata, zero
the tallies; (3) Anchor exit: serialize into the `SPACE`-byte buffer — fails
if the content does not fit.  Any failure aborts the transaction, so the
error branches write nothing. -/
def initialize_voting (s : ChainState) (company_id voting_id : Nat)
    (question : String) (options : List String) : Except TxError ChainState :=
  if (alookup (company_id, voting_id) s.votings).isSome then
    .error .TopicAlreadyExists
  else if 2 ≤ options.length ∧ options.length ≤ 3 then
    if VotingAccount.SPACE < (mkVoting company_id voting_id question options).serializedSize then
      .error .AccountDidNotSerialize
    else
      .ok { s with votings :=
              ((company_id, voting_id), mkVoting company_id voting_id question options)
                :: s.votings }
  else
    .error .InvalidOptionsCount

/-- The tally update the body of `vote` performs on the voting account,
given the current value `val` of `votes[selected_option]`: both `u64`
increments wrap modulo `2 ^ 64`. -/
def updVoting (a : VotingAccount) (selected_option val : Nat) : VotingAccount :=
  { a with
    votes := a.votes.set selected_option ((val + 1) % U64MOD),
    total_votes := (a.total_votes + 1) % U64MOD }

/-- Embedding of the BODY of `fn vote` (lines 60-84 of the source), after
the accounts phase has resolved the `voting` account and created the fresh
`vote` account.  Returns the updated voting account and the content written
into the vote account.  `_company_id` and `_voting_id` are taken exactly as
the source takes them: as arguments the body never reads.  The `.none`
branch of the tally lookup is the Rust panic of
`voting.votes[selected_option as usize] += 1` on an out-of-bounds index. -/
def vote_body (voting : VotingAccount) (voter : Pubkey)
    (_company_id _voting_id : Nat) (selected_option : Nat) :
    Except TxError (VotingAccount × VoteAccount) :=
  if selected_option < voting.options.length then
    match voting.votes.get? selected_option with
    | none => .error .Panicked
    | some v =>
      .ok (updVoting voting selected_option v,
           { voter := voter, selected_option := selected_option })
  else
    .error .InvalidOption

/-- Embedding of the `vote` instruction, including its Anchor accounts
phase.  Order of effects, as in the source `Vote` context: (1) resolve the
existing voting account at `(company_id, voting_id)` — fails if absent;
(2) `init` of the vote PDA at `((company_id, voting_id), voter)` — fails if
occupied (the double-vote defense); (3) the instruction body (`vote_body`);
(4) Anchor exit: serialize both accounts back — fails if either exceeds its
space.  Any failure aborts the transaction, so the error branches write
nothing. -/
def vote (s : ChainState) (company_id voting_id : Nat)
    (selected_option : Nat) (voter : Pubkey) : Except TxError ChainState :=
  match alookup (company_id, voting_id) s.votings with
  | none => .error .TopicNotFound
  | some voting =>
    if (alookup ((company_id, voting_id), voter) s.voteRecords).isSome then
      .error .AlreadyVoted
    else
      match vote_body voting voter company_id voting_id selected_option with
      | .error e => .error e
      | .ok (voting', va) =>
        if VotingAccount.SPACE < voting'.serializedSize ∨
            VoteAccount.SPACE < va.serializedSize then
          .error .AccountDidNotSerialize
        else
          .ok ⟨aset (company_id, voting_id) voting' s.votings,
               (((company_id, voting_id), voter), va) :: s.voteRecords⟩

/-- One committed transaction of this program: either instruction, run with
any arguments, that returned `Ok`.  (Failed transactions leave the state
unchanged, so they do not appear as steps.) -/
inductive Step : ChainState → ChainState → Prop
  | init_voting (s s' : ChainState) (c v : Nat) (q : String) (o : List String) :
      initialize_voting s c v q o = .ok s' → Step s s'
  | cast (s s' : ChainState) (c v opt : Nat) (p : Pubkey) :
      vote s c v opt p = .ok s' → Step s s'

/-- Zero or more committed transactions. -/
inductive Reach : ChainState → ChainState → Prop
  | refl (s : ChainState) : Reach s s
  | tail {s t u : ChainState} : Reach s t → Step t u → Reach s u

/-- States the program can actually produce from the empty chain. -/
def Reachable (s : ChainState) : Prop := Reach initialState s

/-- Summing a list of `u64` values in `u64` arithmetic (each partial sum
wraps modulo `2 ^ 64`), as any on-chain or client-side reader of the
tallies would compute it. -/
def u64sum (l : List Nat) : Nat := l.foldl (fun a b => (a + b) % U64MOD) 0

/-- The well-formedness invariant maintained by the program on every topic
record: as many tallies as options, between 2 and 3 options, `total_votes`
equal to the sum of the tallies modulo `2 ^ 64`, all tally values in `u64`
range, and content fitting its allocated space. -/
def WFacct (a : VotingAccount) : Prop :=
  a.votes.length = a.options.length ∧
  (2 ≤ a.options.length ∧ a.options.length ≤ 3) ∧
  a.total_votes = a.votes.sum % U64MOD ∧
  (∀ x ∈ a.votes, x < U64MOD) ∧
  a.serializedSize ≤ VotingAccount.SPACE

def WF (s : ChainState) : Prop :=
  ∀ k a, alookup k s.votings = some a → WFacct a

/-! Concrete example data, used to instantiate the theorems below on
closed inputs. -/

def exQ : String := "Q"

def exOpts : List String := ["Yes", "No"]

def exVoting : VotingAccount := mkVoting 1 1 exQ exOpts

/-- The chain after `initialize_voting(1, 1, "Q", ["Yes", "No"])`. -/
def exS1 : ChainState := ⟨[((1, 1), exVoting)], []⟩

/-- The chain after voter 7 then casts option 0 on topic (1, 1). -/
def exS2 : ChainState :=
  ⟨[((1, 1), { exVoting with votes := [1, 0], total_votes := 1 })],
   [(((1, 1), 7), ⟨7, 0⟩)]⟩

/-- A 300-byte question (300 times the character a). -/
def bigQ : String := String.mk (List.replicate 300 'a')

/-- The chain after initializing topic (2, 2) with the 300-byte question. -/
def exSbig : ChainState := ⟨[((2, 2), mkVoting 2 2 bigQ ["a", "b"])], []⟩

/-! Generic lemmas about the association-list storage model. -/

theorem alookup_cons {α β : Type} [DecidableEq α] (k a : α) (b : β) (l : List (α × β)) :
    alookup k ((a, b) :: l) = if a = k then some b else alookup k l := rfl

theorem alookup_cons_self {α β : Type} [DecidableEq α] (k : α) (b : β) (l : List (α × β)) :
    alookup k ((k, b) :: l) = some b := by
  rw [alookup_cons, if_pos rfl]

theorem alookup_cons_ne {α β : Type} [DecidableEq α] {k a : α} (b : β) (l : List (α × β))
    (h : a ≠ k) : alookup k ((a, b) :: l) = alookup k l := by
  rw [alookup_cons, if_neg h]

theorem alookup_aset {α β : Type} [DecidableEq α] (k k' : α) (b : β) (l : List (α × β)) :
    alookup k (aset k' b l) =
      if k' = k then (alookup k l).map (fun _ => b) else alookup k l := by
  induction l with
  | nil => simp [aset, alookup]
  | cons hd tl ih =>
    obtain ⟨a, v⟩ := hd
    by_cases h1 : a = k'
    · subst h1
      by_cases h2 : a = k
      · subst h2
        simp [aset, alookup]
      · simp [aset, alookup, h2]
    · by_cases h2 : a = k
      · subst h2
        have : k' ≠ a := fun h => h1 h.symm
        simp [aset, alookup, h1, this]
      · simp [aset, alookup, h1, h2, ih]

theorem alookup_aset_isSome {α β : Type} [DecidableEq α] (k k' : α) (b : β)
    (l : List (α × β)) :
    (alookup k (aset k' b l)).isSome = (alookup k l).isSome := by
  rw [alookup_aset]
  split_ifs with h
  · cases alookup k l <;> rfl
  · rfl

/-! Shape lemmas for the two instructions: exactly when they succeed, and
what the successor state is. -/

theorem initialize_ok_iff (s : ChainState) (c v : Nat) (q : String) (o : List String)
    (s' : ChainState) :
    initialize_voting s c v q o = .ok s' ↔
      alookup (c, v) s.votings = none ∧ (2 ≤ o.length ∧ o.length ≤ 3) ∧
      (mkVoting c v q o).serializedSize ≤ VotingAccount.SPACE ∧
      s' = ⟨((c, v), mkVoting c v q o) :: s.votings, s.voteRecords⟩ := by
  unfold initialize_voting
  cases hl : alookup (c, v) s.votings with
  | some a => simp [hl]
  | none =>
    simp only [hl, Option.isSome_none, Bool.false_eq_true, if_false]
    split_ifs with h2 h3
    · refine iff_of_false (by simp) ?_
      rintro ⟨-, -, hsz, -⟩
      exact absurd h3 (Nat.not_lt.mpr hsz)
    · constructor
      · intro h
        injection h with h
        exact ⟨by trivial, h2, Nat.not_lt.mp h3, h.symm⟩
      · rintro ⟨-, -, -, h⟩
        rw [h]
    · refine iff_of_false (by simp) ?_
      rintro ⟨-, hcnt, -, -⟩
      exact absurd hcnt h2

theorem initialize_occupied (s : ChainState) (c v : Nat) (q : String) (o : List String)
    (h : (alookup (c, v) s.votings).isSome) :
    initialize_voting s c v q o = .error .TopicAlreadyExists := by
  unfold initialize_voting
  simp [h]

theorem vote_topic_missing (s : ChainState) (c v opt : Nat) (p : Pubkey)
    (h : alookup (c, v) s.votings = none) :
    vote s c v opt p = .error .TopicNotFound := by
  unfold vote
  rw [h]

theorem vote_already_voted (s : ChainState) (c v opt : Nat) (p : Pubkey)
    (voting : VotingAccount)
    (ht : alookup (c, v) s.votings = some voting)
    (hr : (alookup ((c, v), p) s.voteRecords).isSome) :
    vote s c v opt p = .error .AlreadyVoted := by
  unfold vote
  rw [ht]
  show (if (alookup ((c, v), p) s.voteRecords).isSome = true then _ else _) = _
  rw [if_pos hr]

theorem vote_invalid_option (s : ChainState) (c v opt : Nat) (p : Pubkey)
    (voting : VotingAccount)
    (ht : alookup (c, v) s.votings = some voting)
    (hr : alookup ((c, v), p) s.voteRecords = none)
    (hopt : voting.options.length ≤ opt) :
    vote s c v opt p = .error .InvalidOption := by
  unfold vote
  rw [ht, hr]
  show (if (none : Option VoteAccount).isSome = true then _ else _) = _
  rw [if_neg (by simp)]
  unfold vote_body
  rw [if_neg (Nat.not_lt.mpr hopt)]

theorem vote_body_ok_iff (voting : VotingAccount) (p : Pubkey) (c v opt : Nat)
    (r : VotingAccount × VoteAccount) :
    vote_body voting p c v opt = .ok r ↔
      ∃ val, opt < voting.options.length ∧ voting.votes.get? opt = some val ∧
        r = (updVoting voting opt val, ⟨p, opt⟩) := by
  unfold vote_body
  by_cases hopt : opt < voting.options.length
  · rw [if_pos hopt]
    cases hv : voting.votes.get? opt with
    | none =>
      refine iff_of_false (by simp) ?_
      rintro ⟨val, -, hval, -⟩
      exact absurd hval (by simp)
    | some val =>
      show (Except.ok (updVoting voting opt val, (⟨p, opt⟩ : VoteAccount)) :
              Except TxError _) = .ok r ↔ _
      constructor
      · intro h
        injection h with h
        exact ⟨val, hopt, rfl, h.symm⟩
      · rintro ⟨val', -, hval, hr⟩
        injection hval with hval
        subst hval
        rw [hr]
  · rw [if_neg hopt]
    refine iff_of_false (by simp) ?_
    rintro ⟨val, hopt', -, -⟩
    exact absurd hopt' hopt

theorem vote_ok_iff (s : ChainState) (c v opt : Nat) (p : Pubkey) (s' : ChainState) :
    vote s c v opt p = .ok s' ↔
      ∃ voting val,
        alookup (c, v) s.votings = some voting ∧
        alookup ((c, v), p) s.voteRecords = none ∧
        opt < voting.options.length ∧
        voting.votes.get? opt = some val ∧
        (updVoting voting opt val).serializedSize ≤ VotingAccount.SPACE ∧
        s' = ⟨aset (c, v) (updVoting voting opt val) s.votings,
              (((c, v), p), ⟨p, opt⟩) :: s.voteRecords⟩ := by
  unfold vote
  cases hl : alookup (c, v) s.votings with
  | none =>
    show (Except.error TxError.TopicNotFound : Except TxError ChainState) = .ok s' ↔ _
    simp
  | some voting0 =>
    cases hr : alookup ((c, v), p) s.voteRecords with
    | some ra =>
      show (if (some ra).isSome = true then _ else _) = _ ↔ _
      rw [if_pos (by simp)]
      simp
    | none =>
      show (if (none : Option VoteAccount).isSome = true then _ else _) = _ ↔ _
      rw [if_neg (by simp)]
      cases hb : vote_body voting0 p c v opt with
      | error e =>
        show (Except.error e : Except TxError ChainState) = .ok s' ↔ _
        refine iff_of_false (by simp) ?_
        rintro ⟨voting, val, hvt, -, hopt, hval, -, -⟩
        injection hvt with hvt
        subst hvt
        have hok : vote_body voting0 p c v opt = .ok (updVoting voting0 opt val, ⟨p, opt⟩) :=
          (vote_body_ok_iff voting0 p c v opt _).mpr ⟨val, hopt, hval, rfl⟩
        rw [hb] at hok
        exact absurd hok (by simp)
      | ok pr =>
        obtain ⟨voting', va⟩ := pr
        obtain ⟨val, hopt, hval, hpr⟩ := (vote_body_ok_iff voting0 p c v opt (voting', va)).mp hb
        injection hpr with h1 h2
        subst h1
        subst h2
        have hva : ¬ VoteAccount.SPACE < VoteAccount.serializedSize ⟨p, opt⟩ := by
          simp [VoteAccount.SPACE, VoteAccount.serializedSize]
        show (if VotingAccount.SPACE < (updVoting voting0 opt val).serializedSize ∨
                  VoteAccount.SPACE < VoteAccount.serializedSize ⟨p, opt⟩ then
                Except.error TxError.AccountDidNotSerialize
              else
                Except.ok (⟨aset (c, v) (updVoting voting0 opt val) s.votings,
                  (((c, v), p), (⟨p, opt⟩ : VoteAccount)) :: s.voteRecords⟩ : ChainState)) =
            Except.ok s' ↔ _
        by_cases hsz : VotingAccount.SPACE < (updVoting voting0 opt val).serializedSize
        · rw [if_pos (Or.inl hsz)]
          refine iff_of_false (by simp) ?_
          rintro ⟨voting, val', hvt, -, -, hval', hsz', -⟩
          injection hvt with hvt
          subst hvt
          rw [hval] at hval'
          injection hval' with hval'
          subst hval'
          exact absurd hsz (Nat.not_lt.mpr hsz')
        · rw [if_neg (not_or_intro hsz hva)]
          constructor
          · intro h
            injection h with h
            exact ⟨voting0, val, rfl, rfl, hopt, hval, Nat.not_lt.mp hsz, h.symm⟩
          · rintro ⟨voting, val', hvt, -, -, hval', -, hs⟩
            injection hvt with hvt
            subst hvt
            rw [hval] at hval'
            injection hval' with hval'
            subst hval'
            rw [hs]

/-! Arithmetic helpers for the u64 tallies. -/

theorem u64sum_from (l : List Nat) (acc : Nat) :
    l.foldl (fun a b => (a + b) % U64MOD) (acc % U64MOD) = (acc + l.sum) % U64MOD := by
  induction l generalizing acc with
  | nil => simp
  | cons x xs ih =>
    simp only [List.foldl_cons, List.sum_cons]
    rw [Nat.mod_add_mod, ih (acc + x), Nat.add_assoc]

theorem u64sum_eq (l : List Nat) : u64sum l = l.sum % U64MOD := by
  have h := u64sum_from l 0
  rw [Nat.zero_mod] at h
  simpa [u64sum] using h

theorem sum_set_add (l : List Nat) (i v w : Nat) (h : l.get? i = some v) :
    (l.set i w).sum + v = l.sum + w := by
  induction l generalizing i with
  | nil => exact absurd h (by simp)
  | cons x xs ih =>
    cases i with
    | zero =>
      simp only [List.get?_cons_zero, Option.some.injEq] at h
      subst h
      simp [List.set]
      omega
    | succ n =>
      have h' : xs.get? n = some v := h
      have hx := ih n h'
      simp [List.set, List.sum_cons]
      omega

theorem set_sum_mod (l : List Nat) (i v : Nat) (h : l.get? i = some v) :
    (l.set i ((v + 1) % U64MOD)).sum % U64MOD = (l.sum + 1) % U64MOD := by
  have hadd := sum_set_add l i v ((v + 1) % U64MOD) h
  have h1 : (l.set i ((v + 1) % U64MOD)).sum + v ≡ (l.sum + 1) + v [MOD U64MOD] := by
    rw [hadd]
    have h2 : l.sum + (v + 1) % U64MOD ≡ l.sum + (v + 1) [MOD U64MOD] :=
      Nat.ModEq.add_left _ (Nat.mod_modEq _ _)
    have h3 : l.sum + (v + 1) = l.sum + 1 + v := by omega
    exact h3 ▸ h2
  exact Nat.ModEq.add_right_cancel' v h1

theorem u64mod_pos : 0 < U64MOD := by decide

theorem wfacct_mkVoting (c v : Nat) (q : String) (o : List String)
    (hcnt : 2 ≤ o.length ∧ o.length ≤ 3)
    (hsz : (mkVoting c v q o).serializedSize ≤ VotingAccount.SPACE) :
    WFacct (mkVoting c v q o) := by
  refine ⟨by simp [mkVoting], hcnt, by simp [mkVoting], ?_, hsz⟩
  intro x hx
  simp only [mkVoting] at hx
  rw [List.eq_of_mem_replicate hx]
  exact u64mod_pos

theorem wfacct_updVoting (a : VotingAccount) (opt val : Nat)
    (hwf : WFacct a) (hval : a.votes.get? opt = some val) :
    WFacct (updVoting a opt val) := by
  obtain ⟨hlen, hcnt, htot, hbound, hsz⟩ := hwf
  refine ⟨?_, hcnt, ?_, ?_, ?_⟩
  · simp [updVoting, List.length_set, hlen]
  · show (a.total_votes + 1) % U64MOD = _
    rw [htot, Nat.mod_add_mod]
    exact (set_sum_mod a.votes opt val hval).symm
  · intro x hx
    simp only [updVoting] at hx
    rcases List.mem_or_eq_of_mem_set hx with h | h
    · exact hbound x h
    · rw [h]
      exact Nat.mod_lt _ u64mod_pos
  · simpa [VotingAccount.serializedSize, updVoting, List.length_set] using hsz

theorem wf_step {s s' : ChainState} (hwf : WF s) (hstep : Step s s') : WF s' := by
  cases hstep with
  | init_voting c v q o h =>
    obtain ⟨hnone, hcnt, hsz, hs⟩ := (initialize_ok_iff s c v q o s').mp h
    subst hs
    intro k a hk
    rw [alookup_cons] at hk
    split_ifs at hk with hke
    · injection hk with hk
      subst hk
      exact wfacct_mkVoting c v q o hcnt hsz
    · exact hwf k a hk
  | cast c v opt p h =>
    obtain ⟨voting, val, hvt, hrn, hopt, hval, hsz, hs⟩ := (vote_ok_iff s c v opt p s').mp h
    subst hs
    intro k a hk
    rw [alookup_aset] at hk
    split_ifs at hk with hke
    · subst hke
      rw [hvt, Option.map_some'] at hk
      injection hk with hk
      subst hk
      exact wfacct_updVoting voting opt val (hwf _ _ hvt) hval
    · exact hwf k a hk

theorem wf_initialState : WF initialState := by
  intro k a hk
  exact absurd hk (by simp [initialState, alookup])

theorem wf_reach {s s' : ChainState} (hwf : WF s) (h : Reach s s') : WF s' := by
  induction h with
  | refl => exact hwf
  | tail hr hstep ih => exact wf_step ih hstep

theorem wf_reachable {s : ChainState} (h : Reachable s) : WF s :=
  wf_reach wf_initialState h

/-! Monotonicity: topics, once created, stay occupied; vote records, once
created, keep their content forever (nothing deletes or rewrites them). -/

theorem step_votings_isSome {s s' : ChainState} (h : Step s s') (k : TopicKey)
    (hk : (alookup k s.votings).isSome) : (alookup k s'.votings).isSome := by
  cases h with
  | init_voting c v q o h =>
    obtain ⟨-, -, -, hs⟩ := (initialize_ok_iff s c v q o s').mp h
    subst hs
    rw [alookup_cons]
    split_ifs with hke
    · rfl
    · exact hk
  | cast c v opt p h =>
    obtain ⟨voting, val, -, -, -, -, -, hs⟩ := (vote_ok_iff s c v opt p s').mp h
    subst hs
    rw [alookup_aset_isSome]
    exact hk

theorem step_record_some {s s' : ChainState} (h : Step s s') (rk : VoteKey)
    (ra : VoteAccount) (hk : alookup rk s.voteRecords = some ra) :
    alookup rk s'.voteRecords = some ra := by
  cases h with
  | init_voting c v q o h =>
    obtain ⟨-, -, -, hs⟩ := (initialize_ok_iff s c v q o s').mp h
    subst hs
    exact hk
  | cast c v opt p h =>
    obtain ⟨voting, val, -, hrn, -, -, -, hs⟩ := (vote_ok_iff s c v opt p s').mp h
    subst hs
    rw [alookup_cons]
    split_ifs with hke
    · subst hke
      rw [hrn] at hk
      exact absurd hk (by simp)
    · exact hk

theorem reach_votings_isSome {s s' : ChainState} (h : Reach s s') (k : TopicKey)
    (hk : (alookup k s.votings).isSome) : (alookup k s'.votings).isSome := by
  induction h with
  | refl => exact hk
  | tail hr hstep ih => exact step_votings_isSome hstep k ih

theorem reach_record_some {s s' : ChainState} (h : Reach s s') (rk : VoteKey)
    (ra : VoteAccount) (hk : alookup rk s.voteRecords = some ra) :
    alookup rk s'.voteRecords = some ra := by
  induction h with
  | refl => exact hk
  | tail hr hstep ih => exact step_record_some hstep rk ra ih

theorem serializedSize_updVoting (a : VotingAccount) (opt val : Nat) :
    (updVoting a opt val).serializedSize = a.serializedSize := by
  simp [VotingAccount.serializedSize, updVoting, List.length_set]

theorem exS1_reachable : Reachable exS1 :=
  Reach.tail (Reach.refl initialState) (Step.init_voting initialState exS1 1 1 exQ exOpts rfl)

theorem exS2_reachable : Reachable exS2 :=
  Reach.tail exS1_reachable (Step.cast exS1 exS2 1 1 0 7 rfl)

/-! The claims. -/

/-- C1: for every sequence of committed transactions, at most one `vote`
call per distinct (topic, participant) pair succeeds: once a vote by `p` on
topic `(c, v)` has committed, every later `vote` by the same participant on
the same topic — with any selected option — fails with `AlreadyVoted` (the
vote PDA is occupied; Anchor `init` fails in the accounts phase).  A failing
call returns only an error, so it changes no state by construction of the
transition semantics. -/
theorem claim_C1_single_vote {s s₁ s₂ : ChainState} (c v opt : Nat) (p : Pubkey)
    (hok : vote s c v opt p = .ok s₁) (hreach : Reach s₁ s₂) (opt' : Nat) :
    vote s₂ c v opt' p = .error .AlreadyVoted := by
  obtain ⟨voting, val, hvt, hrn, hopt, hval, hsz, hs⟩ := (vote_ok_iff s c v opt p s₁).mp hok
  have hrec1 : alookup ((c, v), p) s₁.voteRecords = some ⟨p, opt⟩ := by
    rw [hs]
    exact alookup_cons_self _ _ _
  have hvt1 : (alookup (c, v) s₁.votings).isSome := by
    rw [hs]
    show (alookup (c, v) (aset (c, v) (updVoting voting opt val) s.votings)).isSome = true
    rw [alookup_aset_isSome, hvt]
    rfl
  have hrec2 := reach_record_some hreach _ _ hrec1
  have hvt2 := reach_votings_isSome hreach _ hvt1
  cases hl2 : alookup (c, v) s₂.votings with
  | none =>
    rw [hl2] at hvt2
    simp at hvt2
  | some voting2 =>
    exact vote_already_voted s₂ c v opt' p voting2 hl2 (by rw [hrec2]; rfl)

/-- C1 witness: voter 7 votes once on topic (1, 1); an immediate second vote
by 7 (here with option 1) fails with `AlreadyVoted`. -/
theorem claim_C1_witness :
    vote exS1 1 1 0 7 = .ok exS2 ∧ vote exS2 1 1 1 7 = .error .AlreadyVoted :=
  ⟨rfl, claim_C1_single_vote 1 1 0 7
    (rfl : vote exS1 1 1 0 7 = .ok exS2) (Reach.refl exS2) 1⟩

/-- C2: in every reachable state, every topic record has `total_votes`
equal to the sum of its tallies and as many tallies as options.  The stored
quantities are `u64` values, so the sum is the `u64` sum (`u64sum`); the
final conjunct states that whenever the mathematical sum of the tallies is
below `2 ^ 64` — everywhere short of 2^64 committed votes — `total_votes`
equals it exactly. -/
theorem claim_C2_tally_invariant {s : ChainState} (h : Reachable s) (k : TopicKey)
    (a : VotingAccount) (hk : alookup k s.votings = some a) :
    a.total_votes = u64sum a.votes ∧ a.votes.length = a.options.length ∧
      (a.votes.sum < U64MOD → a.total_votes = a.votes.sum) := by
  obtain ⟨hlen, -, htot, -, -⟩ := wf_reachable h k a hk
  exact ⟨by rw [htot, u64sum_eq], hlen, fun hlt => by rw [htot, Nat.mod_eq_of_lt hlt]⟩

/-- C2 witness: the invariant evaluated on the state after one initialize
and one vote. -/
theorem claim_C2_witness :
    ({ exVoting with votes := [1, 0], total_votes := 1 } : VotingAccount).total_votes =
        u64sum ({ exVoting with votes := [1, 0], total_votes := 1 } : VotingAccount).votes ∧
      ({ exVoting with votes := [1, 0], total_votes := 1 } : VotingAccount).votes.length =
        ({ exVoting with votes := [1, 0], total_votes := 1 } : VotingAccount).options.length ∧
      (({ exVoting with votes := [1, 0], total_votes := 1 } : VotingAccount).votes.sum < U64MOD →
        ({ exVoting with votes := [1, 0], total_votes := 1 } : VotingAccount).total_votes =
          ({ exVoting with votes := [1, 0], total_votes := 1 } : VotingAccount).votes.sum) :=
  claim_C2_tally_invariant exS2_reachable (1, 1)
    { exVoting with votes := [1, 0], total_votes := 1 } rfl

/-- C3: on a reachable state, if the topic exists, the participant has no
vote record yet and the selected option is in range, then `vote` succeeds
and — in the single committed transaction — creates the vote record
containing exactly the caller and the selected option, and replaces the
topic record by one whose tally at `selected_option` and `total_votes` are
incremented by 1 (as `u64` increments; the last two conjuncts give the
exact `+ 1` below `2 ^ 64`), all other fields unchanged.  The two effects
appear only together in the single `Except.ok` result: a failing call
returns an error and performs neither. -/
theorem claim_C3_vote_success_effects {s : ChainState} (h : Reachable s)
    (c v opt : Nat) (p : Pubkey) (a : VotingAccount)
    (ht : alookup (c, v) s.votings = some a)
    (hr : alookup ((c, v), p) s.voteRecords = none)
    (hopt : opt < a.options.length) :
    ∃ val, a.votes.get? opt = some val ∧
      vote s c v opt p = .ok ⟨aset (c, v) (updVoting a opt val) s.votings,
                              (((c, v), p), ⟨p, opt⟩) :: s.voteRecords⟩ ∧
      alookup ((c, v), p)
          ((⟨aset (c, v) (updVoting a opt val) s.votings,
             (((c, v), p), ⟨p, opt⟩) :: s.voteRecords⟩ : ChainState)).voteRecords =
        some ⟨p, opt⟩ ∧
      alookup (c, v)
          ((⟨aset (c, v) (updVoting a opt val) s.votings,
             (((c, v), p), ⟨p, opt⟩) :: s.voteRecords⟩ : ChainState)).votings =
        some (updVoting a opt val) ∧
      (updVoting a opt val).votes = a.votes.set opt ((val + 1) % U64MOD) ∧
      (updVoting a opt val).total_votes = (a.total_votes + 1) % U64MOD ∧
      (updVoting a opt val).question = a.question ∧
      (updVoting a opt val).options = a.options ∧
      (val + 1 < U64MOD → (updVoting a opt val).votes = a.votes.set opt (val + 1)) ∧
      (a.total_votes + 1 < U64MOD →
        (updVoting a opt val).total_votes = a.total_votes + 1) := by
  obtain ⟨hlen, hcnt, htot, hbound, hsz⟩ := wf_reachable h _ _ ht
  cases hv : a.votes.get? opt with
  | none => exact absurd (List.get?_eq_none.mp hv) (by omega)
  | some val =>
    refine ⟨val, rfl, ?_, ?_, ?_, rfl, rfl, rfl, rfl, ?_, ?_⟩
    · exact (vote_ok_iff s c v opt p _).mpr
        ⟨a, val, ht, hr, hopt, hv, by rw [serializedSize_updVoting]; exact hsz, rfl⟩
    · exact alookup_cons_self _ _ _
    · rw [alookup_aset, if_pos rfl, ht, Option.map_some']
    · intro hlt
      show a.votes.set opt ((val + 1) % U64MOD) = _
      rw [Nat.mod_eq_of_lt hlt]
    · intro hlt
      show (a.total_votes + 1) % U64MOD = _
      rw [Nat.mod_eq_of_lt hlt]

/-- C3 witness: voter 7 casts option 0 on the freshly initialized topic. -/
theorem claim_C3_witness :
    ∃ val, exVoting.votes.get? 0 = some val ∧
      vote exS1 1 1 0 7 = .ok ⟨aset (1, 1) (updVoting exVoting 0 val) exS1.votings,
                              (((1, 1), 7), ⟨7, 0⟩) :: exS1.voteRecords⟩ ∧
      alookup ((1, 1), 7)
          ((⟨aset (1, 1) (updVoting exVoting 0 val) exS1.votings,
             (((1, 1), 7), ⟨7, 0⟩) :: exS1.voteRecords⟩ : ChainState)).voteRecords =
        some ⟨7, 0⟩ ∧
      alookup (1, 1)
          ((⟨aset (1, 1) (updVoting exVoting 0 val) exS1.votings,
             (((1, 1), 7), ⟨7, 0⟩) :: exS1.voteRecords⟩ : ChainState)).votings =
        some (updVoting exVoting 0 val) ∧
      (updVoting exVoting 0 val).votes = exVoting.votes.set 0 ((val + 1) % U64MOD) ∧
      (updVoting exVoting 0 val).total_votes = (exVoting.total_votes + 1) % U64MOD ∧
      (updVoting exVoting 0 val).question = exVoting.question ∧
      (updVoting exVoting 0 val).options = exVoting.options ∧
      (val + 1 < U64MOD → (updVoting exVoting 0 val).votes = exVoting.votes.set 0 (val + 1)) ∧
      (exVoting.total_votes + 1 < U64MOD →
        (updVoting exVoting 0 val).total_votes = exVoting.total_votes + 1) :=
  claim_C3_vote_success_effects exS1_reachable 1 1 0 7 exVoting rfl rfl (by decide)

/-- C4 counterexample against the claim as stated: in the reachable state
`exS2`, topic (1, 1) exists and option 5 is out of range (2 options), yet a
`vote` by participant 7 — who already voted — fails with `AlreadyVoted`,
not `InvalidOption`: the Anchor accounts phase (`init` of the occupied vote
PDA) runs before the body's range check. -/
theorem claim_C4_counterexample :
    initialize_voting initialState 1 1 exQ exOpts = .ok exS1 ∧
    vote exS1 1 1 0 7 = .ok exS2 ∧
    alookup (1, 1) exS2.votings = some { exVoting with votes := [1, 0], total_votes := 1 } ∧
    ({ exVoting with votes := [1, 0], total_votes := 1 } : VotingAccount).options.length ≤ 5 ∧
    vote exS2 1 1 5 7 = .error .AlreadyVoted ∧
    vote exS2 1 1 5 7 ≠ .error .InvalidOption :=
  ⟨rfl, rfl, rfl, by decide, by decide, by decide⟩

/-- C4 (amended): a `vote` on an existing topic with
`selected_option ≥ len(options)` always fails and mutates nothing; the
error is `InvalidOption` when the participant has not voted before, and
`AlreadyVoted` (which takes precedence, being raised in the accounts phase)
when the participant already holds a vote record. -/
theorem claim_C4_invalid_option {s : ChainState} (c v opt : Nat) (p : Pubkey)
    (a : VotingAccount) (ht : alookup (c, v) s.votings = some a)
    (hopt : a.options.length ≤ opt) :
    (alookup ((c, v), p) s.voteRecords = none →
      vote s c v opt p = .error .InvalidOption) ∧
    ((alookup ((c, v), p) s.voteRecords).isSome →
      vote s c v opt p = .error .AlreadyVoted) :=
  ⟨fun hr => vote_invalid_option s c v opt p a ht hr hopt,
   fun hr => vote_already_voted s c v opt p a ht hr⟩

/-- C4 witness: a fresh voter 9 with out-of-range option 5 gets
`InvalidOption`; repeat voter 7 with the same option gets `AlreadyVoted`. -/
theorem claim_C4_witness :
    vote exS1 1 1 5 9 = .error .InvalidOption ∧
    vote exS2 1 1 5 7 = .error .AlreadyVoted :=
  ⟨(claim_C4_invalid_option 1 1 5 9 exVoting
      (rfl : alookup (1, 1) exS1.votings = some exVoting) (by decide)).1 rfl,
   (claim_C4_invalid_option 1 1 5 7 { exVoting with votes := [1, 0], total_votes := 1 }
      (rfl : alookup (1, 1) exS2.votings =
        some { exVoting with votes := [1, 0], total_votes := 1 }) (by decide)).2 (by decide)⟩

/-- C5 counterexample against the claim as stated: initializing the
already-occupied pair (1, 1) with 4 options fails with
`TopicAlreadyExists`, not `InvalidOptionsCount`: the Anchor accounts phase
(`init` of the occupied voting PDA) runs before the body's count check. -/
theorem claim_C5_counterexample :
    initialize_voting initialState 1 1 exQ exOpts = .ok exS1 ∧
    (["a", "b", "c", "d"] : List String).length = 4 ∧
    initialize_voting exS1 1 1 exQ ["a", "b", "c", "d"] = .error .TopicAlreadyExists ∧
    initialize_voting exS1 1 1 exQ ["a", "b", "c", "d"] ≠ .error .InvalidOptionsCount :=
  ⟨rfl, rfl, by decide, by decide⟩

/-- C5 (amended): when the topic PDA is fresh, `initialize_voting` with an
option count outside 2..3 fails with `InvalidOptionsCount` and creates
nothing (a failing call returns only an error); on an occupied PDA the
accounts-phase `TopicAlreadyExists` takes precedence.  With 2 or 3 options
the count check passes: the call never returns `InvalidOptionsCount`. -/
theorem claim_C5_options_count (s : ChainState) (c v : Nat) (q : String)
    (o : List String) :
    (alookup (c, v) s.votings = none → ¬(2 ≤ o.length ∧ o.length ≤ 3) →
      initialize_voting s c v q o = .error .InvalidOptionsCount) ∧
    ((2 ≤ o.length ∧ o.length ≤ 3) →
      initialize_voting s c v q o ≠ .error .InvalidOptionsCount) := by
  constructor
  · intro hl hcnt
    unfold initialize_voting
    rw [hl]
    show (if (none : Option VotingAccount).isSome = true then _ else _) = _
    rw [if_neg (by simp), if_neg hcnt]
  · intro hcnt hcon
    unfold initialize_voting at hcon
    split_ifs at hcon <;> simp_all

/-- C5 witness: one option is rejected with `InvalidOptionsCount` on a
fresh chain; two options never produce that error. -/
theorem claim_C5_witness :
    initialize_voting initialState 1 1 exQ ["only"] = .error .InvalidOptionsCount ∧
    initialize_voting initialState 1 1 exQ exOpts ≠ .error .InvalidOptionsCount :=
  ⟨(claim_C5_options_count initialState 1 1 exQ ["only"]).1 rfl (by decide),
   (claim_C5_options_count initialState 1 1 exQ exOpts).2 (by decide)⟩

/-- C6: once `initialize_voting` has succeeded for `(c, v)`, every later
`initialize_voting` on the same pair — with any question and options —
fails with `TopicAlreadyExists` (the voting PDA is occupied).  A failing
call returns only an error, so the registry, the existing record and all
tallies are unchanged by construction of the transition semantics. -/
theorem claim_C6_reinitialize {s s₁ s₂ : ChainState} (c v : Nat) (q q' : String)
    (o o' : List String) (hok : initialize_voting s c v q o = .ok s₁)
    (hreach : Reach s₁ s₂) :
    initialize_voting s₂ c v q' o' = .error .TopicAlreadyExists := by
  obtain ⟨-, -, -, hs⟩ := (initialize_ok_iff s c v q o s₁).mp hok
  have h1 : (alookup (c, v) s₁.votings).isSome := by
    rw [hs]
    show (alookup (c, v) (((c, v), mkVoting c v q o) :: s.votings)).isSome = true
    rw [alookup_cons_self]
    rfl
  exact initialize_occupied s₂ c v q' o' (reach_votings_isSome hreach _ h1)

/-- C6 witness: re-initializing (1, 1) right after its creation fails with
`TopicAlreadyExists`. -/
theorem claim_C6_witness :
    initialize_voting initialState 1 1 exQ exOpts = .ok exS1 ∧
    initialize_voting exS1 1 1 "R" ["x", "y"] = .error .TopicAlreadyExists :=
  ⟨rfl, claim_C6_reinitialize 1 1 exQ "R" exOpts ["x", "y"]
    (rfl : initialize_voting initialState 1 1 exQ exOpts = .ok exS1) (Reach.refl exS1)⟩

/-- C7: a successful `initialize_voting` stores, at the derived address,
exactly the given company id, voting id, question and options, with the
tally vector all zeros of length `len(options)` and `total_votes = 0`; the
options count was valid, and no vote record is touched. -/
theorem claim_C7_initialize_stores {s s' : ChainState} (c v : Nat) (q : String)
    (o : List String) (h : initialize_voting s c v q o = .ok s') :
    alookup (c, v) s'.votings = some ⟨c, v, q, o, List.replicate o.length 0, 0⟩ ∧
    (2 ≤ o.length ∧ o.length ≤ 3) ∧
    s'.voteRecords = s.voteRecords := by
  obtain ⟨-, hcnt, -, hs⟩ := (initialize_ok_iff s c v q o s').mp h
  refine ⟨?_, hcnt, by rw [hs]⟩
  rw [hs]
  exact alookup_cons_self _ _ _

/-- C7 witness: the record stored for topic (1, 1). -/
theorem claim_C7_witness :
    alookup (1, 1) exS1.votings =
      some ⟨1, 1, exQ, exOpts, List.replicate exOpts.length 0, 0⟩ ∧
    (2 ≤ exOpts.length ∧ exOpts.length ≤ 3) ∧
    exS1.voteRecords = initialState.voteRecords :=
  claim_C7_initialize_stores 1 1 exQ exOpts rfl

/-- C8: on every reachable state, neither instruction can abort with a
panic: every call either succeeds or returns a typed error.  The only
potential panic site is the tally indexing `votes[selected_option]`, and it
is unreachable because the range `require!` compares against
`options.len()` and every reachable topic record has
`votes.len() == options.len()`.  (The `u64` increments wrap in a release
build and cannot abort.) -/
theorem claim_C8_no_panic {s : ChainState} (h : Reachable s) :
    (∀ c v q o, initialize_voting s c v q o ≠ .error .Panicked) ∧
    (∀ c v opt p, vote s c v opt p ≠ .error .Panicked) := by
  have hwf := wf_reachable h
  constructor
  · intro c v q o hcon
    unfold initialize_voting at hcon
    split_ifs at hcon <;> simp at hcon
  · intro c v opt p hcon
    cases hl : alookup (c, v) s.votings with
    | none =>
      rw [vote_topic_missing s c v opt p hl] at hcon
      simp at hcon
    | some voting =>
      obtain ⟨hlen, -, -, -, hsz⟩ := hwf _ _ hl
      cases hri : alookup ((c, v), p) s.voteRecords with
      | some ra =>
        rw [vote_already_voted s c v opt p voting hl (by rw [hri]; rfl)] at hcon
        simp at hcon
      | none =>
        by_cases hopt : opt < voting.options.length
        · cases hv : voting.votes.get? opt with
          | none => exact absurd (List.get?_eq_none.mp hv) (by omega)
          | some val =>
            have hok := (vote_ok_iff s c v opt p
                ⟨aset (c, v) (updVoting voting opt val) s.votings,
                 (((c, v), p), ⟨p, opt⟩) :: s.voteRecords⟩).mpr
              ⟨voting, val, hl, hri, hopt, hv,
               by rw [serializedSize_updVoting]; exact hsz, rfl⟩
            rw [hok] at hcon
            simp at hcon
        · rw [vote_invalid_option s c v opt p voting hl hri (Nat.not_lt.mp hopt)] at hcon
          simp at hcon

/-- C8 witness: no call on the reachable state `exS2` aborts with a panic,
including a `vote` with an out-of-range option. -/
theorem claim_C8_witness :
    initialize_voting exS2 1 1 exQ exOpts ≠ .error .Panicked ∧
    vote exS2 1 1 0 7 ≠ .error .Panicked ∧
    vote exS2 1 1 9 9 ≠ .error .Panicked :=
  ⟨(claim_C8_no_panic exS2_reachable).1 1 1 exQ exOpts,
   (claim_C8_no_panic exS2_reachable).2 1 1 0 7,
   (claim_C8_no_panic exS2_reachable).2 1 1 9 9⟩

/-- C9 counterexample against the claim as stated: `initialize_voting`
accepts a 300-byte question (with two 1-byte options the serialized record
still fits in the allocated 528 bytes), so a topic record whose stored
question exceeds 256 bytes is created. -/
theorem claim_C9_counterexample :
    initialize_voting initialState 2 2 bigQ ["a", "b"] = .ok exSbig ∧
    alookup (2, 2) exSbig.votings = some (mkVoting 2 2 bigQ ["a", "b"]) ∧
    (mkVoting 2 2 bigQ ["a", "b"]).question = bigQ ∧
    256 < bigQ.utf8ByteSize :=
  ⟨rfl, rfl, rfl, by decide⟩

/-- C9 (amended): the bound the code actually enforces is on the whole
record, not per field: every topic record in every reachable state has
borsh-serialized size at most `VotingAccount::SPACE` (528 bytes) — the
budget sized for a 256-byte question and three 64-byte options.  Individual
field bounds are not checked; an oversized question is stored as long as
the total fits (see the counterexample). -/
theorem claim_C9_space_bound {s : ChainState} (h : Reachable s) (k : TopicKey)
    (a : VotingAccount) (hk : alookup k s.votings = some a) :
    a.serializedSize ≤ VotingAccount.SPACE :=
  (wf_reachable h k a hk).2.2.2.2

/-- C9 witness: the size bound evaluated on the record of topic (1, 1). -/
theorem claim_C9_witness : exVoting.serializedSize ≤ VotingAccount.SPACE :=
  claim_C9_space_bound exS1_reachable (1, 1) exVoting rfl

/-- C10: the body of `vote` is independent of its `_company_id` and
`_voting_id` arguments: with the same resolved accounts (same topic state,
same voter) and the same selected option, any two values of those arguments
produce the identical result — the same error or the same updated voting
account and vote-record content. -/
theorem claim_C10_ignores_ids (voting : VotingAccount) (p : Pubkey)
    (c1 v1 c2 v2 opt : Nat) :
    vote_body voting p c1 v1 opt = vote_body voting p c2 v2 opt := rfl

end SolanaVoting
